import Mathlib

/-!
Verification development for the FileBasedAgentRuntime repository.

Shallow embedding of the core components and the theorems that settle the
claims about them:
* entities.py          — roles, event types, stop reasons, events
* stream_processor.py  — StreamProcessor.process_stream (turn aggregation)
* async_agent.py       — AsyncAgentRuntime.invoke (multi-round orchestrator)
* path_manager.py      — PathManager.resolve_agent_path (path sandbox)
* stateful_shell.py    — StatefulShell.execute and _check_command_safety
* persistent_shell.py  — PersistentShell.execute (pexpect interaction loop)
* file_system_agent.py — FileSystemAgent.execute_tool and _sync_context
* tools_registry.py    — ToolsRegistry.get_all_tools (tool manifest)

External collaborators (the Anthropic SDK transport, the pexpect process, the
real filesystem, Python's json module) are modelled as explicit parameters or
event scripts, so every definition is executable on concrete inputs.
-/

namespace AgentRuntime

/-- Role of a message, from entities.Role. -/
inductive Role where
  | user
  | assistant
  | system
deriving DecidableEq, Repr

/-- Event type, from entities.EventType. -/
inductive EventType where
  | message
  | toolUse
  | toolResult
  | thinking
  | error
deriving DecidableEq, Repr

/-- Stop reason, from entities.StopReason. -/
inductive StopReason where
  | endTurn
  | maxTokens
  | stopSequence
  | toolUse
  | pauseTurn
  | refusal
deriving DecidableEq, Repr

/-- JSON values: the Python dict/list/str/int/bool/None results that
`json.loads` (standard library, external to the repository) can return. -/
inductive JsonValue where
  | jnull
  | jbool (b : Bool)
  | jnum (n : Int)
  | jstr (s : String)
  | jarr (xs : List JsonValue)
  | jobj (fields : List (String × JsonValue))
deriving Repr

/-- In-order concatenation of a list of string fragments, "".join(...). -/
def concatFrags : List String → String
  | [] => ""
  | f :: fs => f ++ concatFrags fs

/-! ### A small JSON parser

Modelled from Python's `json.loads` (standard library, external to the
repository): strict JSON with string/number/bool/null/array/object values.
It is used only to instantiate the `parse` parameter of the aggregator
embeddings on concrete inputs; the aggregation theorems hold for an
arbitrary `parse` function. -/

/-- JSON whitespace. -/
def jsonWs (c : Char) : Bool := c = ' ' || c = '\t' || c = '\n' || c = '\r'

/-- Drop leading JSON whitespace. -/
def skipWs : List Char → List Char
  | [] => []
  | c :: cs => if jsonWs c then skipWs cs else c :: cs

/-- Parse the body of a JSON string literal (after the opening quote),
returning the decoded characters and the remainder after the closing quote. -/
def parseStrBody : List Char → Option (List Char × List Char)
  | [] => none
  | '"' :: cs => some ([], cs)
  | '\\' :: e :: cs =>
    let dec : Option Char :=
      match e with
      | '"' => some '"'
      | '\\' => some '\\'
      | '/' => some '/'
      | 'n' => some '\n'
      | 't' => some '\t'
      | 'r' => some '\r'
      | _ => none
    match dec with
    | some d =>
      match parseStrBody cs with
      | some (body, rem) => some (d :: body, rem)
      | none => none
    | none => none
  | c :: cs =>
    match parseStrBody cs with
    | some (body, rem) => some (c :: body, rem)
    | none => none

/-- Leading run of decimal digits and the remainder. -/
def takeDigits : List Char → (List Char × List Char)
  | [] => ([], [])
  | c :: cs =>
    if c.isDigit then
      let (ds, rem) := takeDigits cs
      (c :: ds, rem)
    else ([], c :: cs)

/-- Numeric value of a digit run. -/
def digitsVal : List Char → Nat → Nat
  | [], acc => acc
  | c :: cs, acc => digitsVal cs (acc * 10 + (c.toNat - '0'.toNat))

/-- Parse a JSON integer (optional minus sign, one or more digits). -/
def parseNum : List Char → Option (Int × List Char)
  | '-' :: cs =>
    match takeDigits cs with
    | ([], _) => none
    | (ds, rem) => some (-(Int.ofNat (digitsVal ds 0)), rem)
  | cs =>
    match takeDigits cs with
    | ([], _) => none
    | (ds, rem) => some (Int.ofNat (digitsVal ds 0), rem)

mutual

/-- Parse one JSON value; `fuel` bounds the recursion depth. -/
def parseVal : Nat → List Char → Option (JsonValue × List Char)
  | 0, _ => none
  | Nat.succ fuel, cs =>
    match skipWs cs with
    | [] => none
    | '"' :: cs' =>
      match parseStrBody cs' with
      | some (body, rem) => some (.jstr ⟨body⟩, rem)
      | none => none
    | '\x7b' :: cs' =>
      match skipWs cs' with
      | '\x7d' :: rem => some (.jobj [], rem)
      | cs'' =>
        match parseFields fuel cs'' with
        | some (fs, rem) => some (.jobj fs, rem)
        | none => none
    | '[' :: cs' =>
      match skipWs cs' with
      | ']' :: rem => some (.jarr [], rem)
      | cs'' =>
        match parseElems fuel cs'' with
        | some (xs, rem) => some (.jarr xs, rem)
        | none => none
    | 't' :: cs' =>
      if ['r', 'u', 'e'].isPrefixOf cs' then some (.jbool true, cs'.drop 3) else none
    | 'f' :: cs' =>
      if ['a', 'l', 's', 'e'].isPrefixOf cs' then some (.jbool false, cs'.drop 4) else none
    | 'n' :: cs' =>
      if ['u', 'l', 'l'].isPrefixOf cs' then some (.jnull, cs'.drop 3) else none
    | cs' =>
      match parseNum cs' with
      | some (n, rem) => some (.jnum n, rem)
      | none => none

/-- Parse a non-empty comma-separated field list of a JSON object, up to and
including the closing brace. -/
def parseFields : Nat → List Char → Option (List (String × JsonValue) × List Char)
  | 0, _ => none
  | Nat.succ fuel, cs =>
    match cs with
    | '"' :: cs' =>
      match parseStrBody cs' with
      | some (key, rem1) =>
        match skipWs rem1 with
        | ':' :: rem2 =>
          match parseVal fuel rem2 with
          | some (v, rem3) =>
            match skipWs rem3 with
            | '\x7d' :: rem4 => some ([(⟨key⟩, v)], rem4)
            | ',' :: rem4 =>
              match parseFields fuel (skipWs rem4) with
              | some (fs, rem5) => some ((⟨key⟩, v) :: fs, rem5)
              | none => none
            | _ => none
          | none => none
        | _ => none
      | none => none
    | _ => none

/-- Parse a non-empty comma-separated element list of a JSON array, up to and
including the closing bracket. -/
def parseElems : Nat → List Char → Option (List JsonValue × List Char)
  | 0, _ => none
  | Nat.succ fuel, cs =>
    match parseVal fuel cs with
    | some (v, rem) =>
      match skipWs rem with
      | ']' :: rem' => some ([v], rem')
      | ',' :: rem' =>
        match parseElems fuel rem' with
        | some (xs, rem'') => some (v :: xs, rem'')
        | none => none
      | _ => none
    | none => none

end

namespace Json

/-- Parse a complete JSON document; fails on trailing garbage, as
`json.loads` does. -/
def parse (s : String) : Option JsonValue :=
  match parseVal (s.data.length + 1) s.data with
  | some (v, rem) => if skipWs rem = [] then some v else none
  | none => none

end Json

/-! ### StreamProcessor (stream_processor.py)

The aggregator consumes an ordered sequence of wire events for one model
turn.  The constructors of `StreamEvent` carry exactly the attributes the
dispatch in `process_stream` reads; the `parse` parameter models
`json.loads`, which is external to the repository. -/

/-- Tool call emitted by the aggregator, from stream_processor.ToolCall. -/
structure ToolCall where
  id : String
  name : String
  input : JsonValue
deriving Repr

/-- Usage dict maintained by StreamProcessor: `input_tokens` is absent when
the dict was first created by a message_delta event (line 127). -/
structure SPUsage where
  input_tokens : Option Nat
  output_tokens : Nat
deriving DecidableEq, Repr

/-- Wire-protocol events for one turn, as read by
StreamProcessor.process_stream.  A `content_block_delta` is classified by
which attribute it has (text / partial_json / thinking), exactly as the
hasattr dispatch of lines 92-101 does. -/
inductive StreamEvent where
  | messageStart (inputTokens outputTokens : Nat)
  | blockStartText
  | blockStartThinking
  | blockStartToolUse (id name : String)
  | deltaText (s : String)
  | deltaPartialJson (s : String)
  | deltaThinking (s : String)
  | blockStop
  | messageDelta (stopReason : Option StopReason) (outputTokens : Nat)
  | messageStop

/-- Mutable state of StreamProcessor, from `reset` (lines 34-41).
`current_tool_use` holds the id, name and accumulated input_json string of
the open tool-use block, if any. -/
structure SPState where
  text_buffer : List String
  thinking_buffer : List String
  current_tool_use : Option (String × String × String)
  tool_uses : List ToolCall
  stop_reason : Option StopReason
  usage : Option SPUsage

/-- State after `reset`. -/
def SPState.init : SPState := ⟨[], [], none, [], none, none⟩

/-- Fallback input produced on JSON parse failure of a closed tool-use
block (stream_processor.py lines 109-110). -/
def parseFailInput (raw : String) : JsonValue :=
  .jobj [("error", .jstr "Failed to parse input"), ("raw", .jstr raw)]

/-- One step of the event dispatch of StreamProcessor.process_stream
(stream_processor.py lines 66-127). -/
def spStep (parse : String → Option JsonValue) (st : SPState) (ev : StreamEvent) : SPState :=
  match ev with
  | .messageStart i o => { st with usage := some ⟨some i, o⟩ }
  | .blockStartText => st
  | .blockStartThinking => st
  | .blockStartToolUse id name => { st with current_tool_use := some (id, name, "") }
  | .deltaText s => { st with text_buffer := st.text_buffer ++ [s] }
  | .deltaPartialJson s =>
    match st.current_tool_use with
    | some (id, name, acc) => { st with current_tool_use := some (id, name, acc ++ s) }
    | none => st
  | .deltaThinking s => { st with thinking_buffer := st.thinking_buffer ++ [s] }
  | .blockStop =>
    match st.current_tool_use with
    | some (id, name, raw) =>
      let input :=
        match parse raw with
        | some v => v
        | none => parseFailInput raw
      { st with tool_uses := st.tool_uses ++ [⟨id, name, input⟩], current_tool_use := none }
    | none => st
  | .messageDelta sr o =>
    { st with
      stop_reason := sr
      usage :=
        match st.usage with
        | some u => some { u with output_tokens := o }
        | none => some ⟨none, o⟩ }
  | .messageStop => st

/-- Complete aggregated response, from stream_processor.CompleteResponse
(the tool_results field is filled only by the orchestrator, never by
process_stream, and is omitted here). -/
structure CompleteResponse where
  text : String
  tool_calls : List ToolCall
  stop_reason : Option StopReason
  usage : Option SPUsage
  thinking : Option String

/-- StreamProcessor.process_stream as a fold over the turn's events
(the optional console callback observes events but does not change the
aggregation state, so it is not part of the model). -/
def processStream (parse : String → Option JsonValue) (events : List StreamEvent) : CompleteResponse :=
  let st := events.foldl (spStep parse) SPState.init
  { text := concatFrags st.text_buffer
    tool_calls := st.tool_uses
    stop_reason := st.stop_reason
    usage := st.usage
    thinking := if st.thinking_buffer = [] then none else some (concatFrags st.thinking_buffer) }

/-! ### Aggregation lemmas (claims C2 and C3) -/

/-- On a delta carrying partial_json, only the accumulated input_json string
of the open tool-use block changes (stream_processor.py lines 95-98). -/
theorem spStep_deltaFold (parse : String → Option JsonValue) (id name : String)
    (fs : List String) (acc : String) (st : SPState)
    (h : st.current_tool_use = some (id, name, acc)) :
    (fs.map StreamEvent.deltaPartialJson).foldl (spStep parse) st
      = { st with current_tool_use := some (id, name, acc ++ concatFrags fs) } := by
  induction fs generalizing st acc with
  | nil =>
    cases st
    simp only [SPState.mk.injEq] at h ⊢
    simp [concatFrags, String.append_empty, h]
  | cons f fs ih =>
    simp only [List.map_cons, List.foldl_cons]
    rw [show spStep parse st (.deltaPartialJson f)
          = { st with current_tool_use := some (id, name, acc ++ f) } by
        simp [spStep, h]]
    rw [ih (acc ++ f) _ rfl]
    simp [concatFrags, String.append_assoc]

/-- Opening a tool-use block and feeding it fragments leaves the emitted
tool-call list untouched and accumulates the in-order concatenation of the
fragments as the block's pending input_json string. -/
theorem toolUse_block_fold (parse : String → Option JsonValue) (st : SPState)
    (id name : String) (fs : List String) :
    (fs.map StreamEvent.deltaPartialJson).foldl (spStep parse)
        (spStep parse st (.blockStartToolUse id name))
      = { st with current_tool_use := some (id, name, concatFrags fs) } := by
  rw [spStep_deltaFold parse id name fs "" (spStep parse st (.blockStartToolUse id name)) rfl]
  have he : ("" : String) ++ concatFrags fs = concatFrags fs := by
    cases h : concatFrags fs
    rfl
  simp [spStep, he]

/-- C2: for every tool-use block whose input arrives as a sequence of
input_json_delta fragments between its block-start and block-stop, the
aggregator's emitted ToolCall input equals JSON-parsing the in-order
concatenation of all fragments, and no tool call is emitted before the
block closes.  Stated for an arbitrary `parse` (modelling json.loads) and
an arbitrary pre-state, so it also covers sequential non-overlapping block
lifetimes mid-turn. -/
theorem toolUse_input_reconstruction (parse : String → Option JsonValue)
    (st : SPState) (id name : String) (fs : List String) (v : JsonValue)
    (hparse : parse (concatFrags fs) = some v) :
    ((fs.map StreamEvent.deltaPartialJson).foldl (spStep parse)
        (spStep parse st (.blockStartToolUse id name))).tool_uses = st.tool_uses
    ∧ (spStep parse
        ((fs.map StreamEvent.deltaPartialJson).foldl (spStep parse)
          (spStep parse st (.blockStartToolUse id name)))
        .blockStop).tool_uses
      = st.tool_uses ++ [⟨id, name, v⟩] := by
  rw [toolUse_block_fold parse st id name fs]
  exact ⟨rfl, by simp [spStep, hparse]⟩

/-- Witness for C2: scenario C — fragments `{"pa`, `th":"a.`, `txt"}` yield
the parsed input `{"path": "a.txt"}`, and nothing was emitted before the
block-stop. -/
theorem toolUse_input_reconstruction_witness :
    Json.parse (concatFrags ["\x7b\"pa", "th\":\"a.", "txt\"\x7d"])
      = some (.jobj [("path", .jstr "a.txt")])
    ∧ ((["\x7b\"pa", "th\":\"a.", "txt\"\x7d"].map StreamEvent.deltaPartialJson).foldl
          (spStep Json.parse)
          (spStep Json.parse SPState.init (.blockStartToolUse "toolu_1" "read_file"))).tool_uses
        = SPState.init.tool_uses
    ∧ (spStep Json.parse
        ((["\x7b\"pa", "th\":\"a.", "txt\"\x7d"].map StreamEvent.deltaPartialJson).foldl
          (spStep Json.parse)
          (spStep Json.parse SPState.init (.blockStartToolUse "toolu_1" "read_file")))
        .blockStop).tool_uses
      = SPState.init.tool_uses ++ [⟨"toolu_1", "read_file", .jobj [("path", .jstr "a.txt")]⟩] :=
  ⟨rfl,
   (toolUse_input_reconstruction Json.parse SPState.init "toolu_1" "read_file"
      ["\x7b\"pa", "th\":\"a.", "txt\"\x7d"] (.jobj [("path", .jstr "a.txt")]) rfl).1,
   (toolUse_input_reconstruction Json.parse SPState.init "toolu_1" "read_file"
      ["\x7b\"pa", "th\":\"a.", "txt\"\x7d"] (.jobj [("path", .jstr "a.txt")]) rfl).2⟩

/-- First key of a JSON object, used to tell the two parse-failure
sentinels apart. -/
def firstKey : JsonValue → Option String
  | .jobj ((k, _) :: _) => some k
  | _ => none

/-- Counterexample for C3: closing a tool-use block whose accumulated
fragment `{"pa` is not valid JSON produces the StreamProcessor sentinel
`{"error": "Failed to parse input", "raw": <raw>}`, which is not
`{"INVALID_JSON": <raw>}` as the claim states. -/
theorem invalid_json_sentinel_counterexample :
    (spStep Json.parse
        (spStep Json.parse
          (spStep Json.parse SPState.init (.blockStartToolUse "toolu_1" "shell"))
          (.deltaPartialJson "\x7b\"pa"))
        .blockStop).tool_uses
      = [⟨"toolu_1", "shell", parseFailInput "\x7b\"pa"⟩]
    ∧ parseFailInput "\x7b\"pa" ≠ .jobj [("INVALID_JSON", .jstr "\x7b\"pa")] :=
  ⟨rfl, by
    intro h
    have hk := congrArg firstKey h
    simp [firstKey, parseFailInput] at hk⟩

/-- C3 (amended): for every tool-use block whose accumulated fragment
concatenation fails to parse, closing the block produces a ToolCall whose
input is `{"error": "Failed to parse input", "raw": <raw string>}`; no
exception is raised and the turn completes normally (the fold is total).
The `INVALID_JSON` sentinel appears only in the separate streaming-event
aggregator AsyncAgentRuntime._process_stream, not in StreamProcessor. -/
theorem invalid_json_degrades_to_sentinel (parse : String → Option JsonValue)
    (st : SPState) (id name : String) (fs : List String)
    (hparse : parse (concatFrags fs) = none) :
    (spStep parse
        ((fs.map StreamEvent.deltaPartialJson).foldl (spStep parse)
          (spStep parse st (.blockStartToolUse id name)))
        .blockStop).tool_uses
      = st.tool_uses ++ [⟨id, name, parseFailInput (concatFrags fs)⟩] := by
  rw [toolUse_block_fold parse st id name fs]
  simp [spStep, hparse]

/-- Witness for the amended C3 at the concrete invalid fragment `{"pa`. -/
theorem invalid_json_degrades_to_sentinel_witness :
    Json.parse (concatFrags ["\x7b\"pa"]) = none
    ∧ (spStep Json.parse
        ((["\x7b\"pa"].map StreamEvent.deltaPartialJson).foldl (spStep Json.parse)
          (spStep Json.parse SPState.init (.blockStartToolUse "toolu_1" "shell")))
        .blockStop).tool_uses
      = SPState.init.tool_uses ++ [⟨"toolu_1", "shell", parseFailInput (concatFrags ["\x7b\"pa"])⟩] :=
  ⟨rfl,
   invalid_json_degrades_to_sentinel Json.parse SPState.init "toolu_1" "shell" ["\x7b\"pa"] rfl⟩

/-! ### Orchestrator (async_agent.py, AsyncAgentRuntime.invoke, lines 189-328)

The remote service is modelled as an oracle giving the aggregated
CompleteResponse of each round; agent.execute_tool composed with
_format_tool_result is modelled as a function from tool call to outcome.
The system-prompt loading and the final_response accumulation do not touch
the message history and are elided. -/

/-- One content block of a history event, from entities.py. -/
inductive Block where
  | text (s : String)
  | thinking (s : String)
  | toolUse (id name : String) (input : JsonValue)
  | toolResult (tool_use_id : String) (content : String)

/-- Event content: either a single bare block (the lone-TextContent form of
invoke lines 272-274) or a list of blocks. -/
inductive EventContent where
  | one (b : Block)
  | many (bs : List Block)

/-- Conversation event, from entities.Event; `id` is the position assigned
by create_event (line 511), created_at is environmental and elided. -/
structure Event where
  id : Nat
  role : Role
  type : EventType
  content : EventContent

/-- AsyncAgentRuntime.create_event: append an event whose id is the current
history length (async_agent.py lines 502-513). -/
def appendEvent (msgs : List Event) (role : Role) (ty : EventType) (c : EventContent) : List Event :=
  msgs ++ [⟨msgs.length, role, ty, c⟩]

/-- Outcome of agent.execute_tool for one call: either the formatted result
string (after _format_tool_result) or an exception carrying its message and
formatted traceback. -/
inductive ToolOutcome where
  | ok (formatted : String)
  | exc (msg tb : String)

/-- Error content built for a failed tool call (async_agent.py line 304). -/
def toolErrorContent (msg tb : String) : String :=
  "Tool execution error: " ++ msg ++ "\n\n📋 详细堆栈信息：\n" ++ tb

/-- One entry of the per-round tool_results list (invoke lines 293-310):
a ToolResultContent whose content is the formatted result, or the
descriptive error string when execution raised. -/
def toolResultBlock (execTool : ToolCall → ToolOutcome) (tc : ToolCall) : Block :=
  .toolResult tc.id
    (match execTool tc with
     | .ok s => s
     | .exc m tb => toolErrorContent m tb)

/-- Assistant content blocks built from a round's response
(invoke lines 258-269): the text block if text is non-empty, then one
tool-use block per tool call, in order. -/
def assistantBlocks (r : CompleteResponse) : List Block :=
  (if r.text = "" then [] else [.text r.text])
    ++ r.tool_calls.map (fun tc => .toolUse tc.id tc.name tc.input)

/-- Invoke lines 271-282: no event if there are no blocks; the bare form if
the only block is a TextContent; otherwise the list form. -/
def assistantContent : List Block → Option EventContent
  | [] => none
  | [.text s] => some (.one (.text s))
  | bs => some (.many bs)

/-- The round loop of AsyncAgentRuntime.invoke (lines 216-327).  The first
argument of the result is the final message history, the second collects
the api_messages snapshot handed to the remote service at the top of each
executed round (line 222). -/
def runRounds (oracle : Nat → CompleteResponse) (execTool : ToolCall → ToolOutcome) :
    Nat → Nat → List Event → List (List Event) → List Event × List (List Event)
  | 0, _, msgs, reqs => (msgs, reqs)
  | Nat.succ n, round, msgs, reqs =>
    let reqs' := reqs ++ [msgs]
    let r := oracle round
    let msgs' :=
      match assistantContent (assistantBlocks r) with
      | some c => appendEvent msgs .assistant .message c
      | none => msgs
    if r.tool_calls.isEmpty then (msgs', reqs')
    else
      let msgs'' :=
        appendEvent msgs' .user .toolResult (.many (r.tool_calls.map (toolResultBlock execTool)))
      if r.stop_reason = some .maxTokens ∨ r.stop_reason = some .refusal then (msgs'', reqs')
      else runRounds oracle execTool n (round + 1) msgs'' reqs'

/-- AsyncAgentRuntime.invoke after the optional initial user message has
been appended: run up to max_rounds rounds starting from the given
history. -/
def invokeRun (oracle : Nat → CompleteResponse) (execTool : ToolCall → ToolOutcome)
    (maxRounds : Nat) (init : List Event) : List Event × List (List Event) :=
  runRounds oracle execTool maxRounds 0 init []

/-- Appending the optional assistant event keeps the old history as a
prefix. -/
theorem assistantAppend_extends (msgs : List Event) (bs : List Block) :
    msgs <+: (match assistantContent bs with
              | some c => appendEvent msgs .assistant .message c
              | none => msgs) := by
  cases assistantContent bs with
  | none => exact List.prefix_refl _
  | some c => exact List.prefix_append _ _

/-- The history only grows: the input history is a prefix of the history
produced by the round loop. -/
theorem runRounds_extends (oracle : Nat → CompleteResponse) (execTool : ToolCall → ToolOutcome)
    (n round : Nat) (msgs : List Event) (reqs : List (List Event)) :
    msgs <+: (runRounds oracle execTool n round msgs reqs).1 := by
  induction n generalizing round msgs reqs with
  | zero => exact List.prefix_refl _
  | succ n ih =>
    rw [runRounds]
    dsimp only
    by_cases he : (oracle round).tool_calls.isEmpty = true
    · rw [if_pos he]
      exact assistantAppend_extends msgs _
    · rw [if_neg he]
      by_cases hs : (oracle round).stop_reason = some .maxTokens
          ∨ (oracle round).stop_reason = some .refusal
      · rw [if_pos hs]
        exact (assistantAppend_extends msgs _).trans (List.prefix_append _ _)
      · rw [if_neg hs]
        exact ((assistantAppend_extends msgs _).trans (List.prefix_append _ _)).trans (ih _ _ _)

/-! ### Claim C1: the unanswered tool_result at loop exit -/

/-- Response oracle returning one shell tool call every round, with stop
reason tool_use. -/
def c1Oracle : Nat → CompleteResponse := fun _ =>
  { text := "I will run a command."
    tool_calls := [⟨"toolu_1", "shell", .jobj [("command", .jstr "ls")]⟩]
    stop_reason := some .toolUse
    usage := none
    thinking := none }

/-- Tool executor returning a fixed formatted result. -/
def c1Exec : ToolCall → ToolOutcome := fun _ => .ok "Exit code: 0"

/-- Initial history: one user message. -/
def c1Init : List Event := [⟨0, .user, .message, .one (.text "hi")⟩]

/-- C1 is violated by the code: with max_rounds = 1 and a round that
returns a tool call, invoke appends the tool_result batch and exits the
loop without issuing any further request, so the run ends with the history
ending on an unanswered tool_result batch, and only one request was ever
issued.  (The same happens for any max_rounds when a round with tool calls
stops with max_tokens or refusal, lines 324-326.) -/
theorem unanswered_tool_result_at_loop_exit :
    ((invokeRun c1Oracle c1Exec 1 c1Init).1.getLast?.map Event.type)
      = some EventType.toolResult
    ∧ (invokeRun c1Oracle c1Exec 1 c1Init).2.length = 1 :=
  ⟨rfl, rfl⟩

/-! ### Claim C4: per-round tool execution -/

/-- C4: for every round whose response carries a non-empty list of tool
calls, the orchestrator builds one result per call, in exactly the order
received, converting an execution exception into a tool result whose
content is the descriptive error string (so no failure aborts the batch),
and appends exactly one tool_result event carrying all the results to the
history, right after the assistant event of the same round. -/
theorem tool_results_batch (oracle : Nat → CompleteResponse) (execTool : ToolCall → ToolOutcome)
    (n round : Nat) (msgs : List Event) (reqs : List (List Event))
    (h : (oracle round).tool_calls ≠ []) :
    ((oracle round).tool_calls.map (toolResultBlock execTool)).length
        = (oracle round).tool_calls.length
    ∧ (∀ i (hi : i < (oracle round).tool_calls.length),
        ((oracle round).tool_calls.map (toolResultBlock execTool)).get ⟨i, by simpa using hi⟩
          = .toolResult ((oracle round).tool_calls.get ⟨i, hi⟩).id
              (match execTool ((oracle round).tool_calls.get ⟨i, hi⟩) with
               | .ok s => s
               | .exc m tb => toolErrorContent m tb))
    ∧ (appendEvent
          (match assistantContent (assistantBlocks (oracle round)) with
           | some c => appendEvent msgs .assistant .message c
           | none => msgs)
          .user .toolResult
          (.many ((oracle round).tool_calls.map (toolResultBlock execTool))))
        <+: (runRounds oracle execTool (n + 1) round msgs reqs).1 := by
  refine ⟨List.length_map _ _, ?_, ?_⟩
  · intro i hi
    simp [List.getElem_map, toolResultBlock]
  · rw [runRounds]
    dsimp only
    rw [if_neg (by simp [h])]
    by_cases hs : (oracle round).stop_reason = some .maxTokens
        ∨ (oracle round).stop_reason = some .refusal
    · rw [if_pos hs]
    · rw [if_neg hs]
      exact runRounds_extends oracle execTool n (round + 1) _ _

/-- Concrete tool calls for the C4 witness: the second one fails. -/
def c4Calls : List ToolCall :=
  [⟨"toolu_a", "shell", .jobj [("command", .jstr "ls")]⟩,
   ⟨"toolu_b", "edit_file", .jobj []⟩]

/-- Oracle answering every round with the two calls above and no text. -/
def c4Oracle : Nat → CompleteResponse := fun _ =>
  { text := ""
    tool_calls := c4Calls
    stop_reason := some .toolUse
    usage := none
    thinking := none }

/-- Executor succeeding on the first call and raising on the second. -/
def c4Exec : ToolCall → ToolOutcome := fun tc =>
  if tc.id = "toolu_a" then .ok "Exit code: 0" else .exc "boom" "Traceback (most recent call last)"

/-- Witness for C4: on the two-call round with one failing call, both
results are produced in order, the failing one carrying the descriptive
error string, and the single tool_result event lands in the history built
by the round loop. -/
theorem tool_results_batch_witness :
    c4Calls ≠ []
    ∧ (c4Calls.map (toolResultBlock c4Exec)).length = c4Calls.length
    ∧ (c4Calls.map (toolResultBlock c4Exec)).get ⟨1, by decide⟩
        = .toolResult "toolu_b" (toolErrorContent "boom" "Traceback (most recent call last)")
    ∧ (appendEvent
          (match assistantContent (assistantBlocks (c4Oracle 0)) with
           | some c => appendEvent c1Init .assistant .message c
           | none => c1Init)
          .user .toolResult
          (.many ((c4Oracle 0).tool_calls.map (toolResultBlock c4Exec))))
        <+: (runRounds c4Oracle c4Exec 1 0 c1Init []).1 :=
  have h : c4Calls ≠ [] := by simp [c4Calls]
  have main := tool_results_batch c4Oracle c4Exec 0 0 c1Init [] h
  ⟨h, main.1, main.2.1 1 (by decide), main.2.2⟩

/-! ### PathSandbox (path_manager.py, PathManager.resolve_agent_path) -/

/-- Substring occurrence test over character lists. -/
def subOf (pat s : List Char) : Bool :=
  (List.range (s.length + 1)).any fun i => pat.isPrefixOf (s.drop i)

/-- Python's `pat in s` substring containment. -/
def strContainsSub (s pat : String) : Bool := subOf pat.data s.data

/-- Python str.startswith, over the character lists. -/
def strStartsWith (s pre : String) : Bool := pre.data.isPrefixOf s.data

/-- Disallowed system directories (path_manager.py line 48). -/
def SYSTEM_DIRS : List String :=
  ["/etc", "/usr", "/home", "/var", "/tmp", "/root", "/bin", "/sbin"]

/-- The resolved roots set up by PathManager.__init__. -/
structure PathManager where
  agent_root : String

/-- The workspace subdirectory (path_manager.py line 15). -/
def PathManager.workspace (pm : PathManager) : String := pm.agent_root ++ "/workspace"

/-- Python str.lstrip("/"). -/
def lstripSlash (s : String) : String := ⟨s.data.dropWhile (· = '/')⟩

/-- pathlib's `base / rel` for a relative rel; an empty component is
dropped. -/
def pathJoin (base rel : String) : String :=
  if rel = "" then base else base ++ "/" ++ rel

/-- PathManager.resolve_agent_path (path_manager.py lines 29-73).
`realResolve` models `Path.resolve()`, the only filesystem-dependent step
(symlink and relative-segment resolution); with strict=False it is total on
missing paths, so the except branch of lines 67-71, which guards rare OS
errors, does not fire in this model.  The function performs no read or
write of any file: it only builds and checks names. -/
def resolve_agent_path (realResolve : String → String) (pm : PathManager)
    (agent_path : String) : Except String String :=
  if strContainsSub agent_path ".." then .error "Path traversal not allowed"
  else
    match SYSTEM_DIRS.find? (fun d => strStartsWith agent_path d) with
    | some d => .error ("Access to system directory " ++ d ++ " not allowed")
    | none =>
      let resolved_path :=
        if strStartsWith agent_path "/" then pathJoin pm.agent_root (lstripSlash agent_path)
        else pathJoin pm.workspace agent_path
      let rp := realResolve resolved_path
      if strStartsWith rp pm.agent_root then .ok rp
      else .error "Path escapes agent root directory"

/-- C5: every virtual path that contains a `..` traversal segment, or
begins with a disallowed system-directory prefix, or whose built path
resolves outside the configured sandbox root, is rejected with a
path-violation error; `resolve_agent_path` touches no file content, so no
read or write of the target occurs. -/
theorem path_violation_rejected (realResolve : String → String) (pm : PathManager)
    (p : String)
    (h : strContainsSub p ".." = true
       ∨ SYSTEM_DIRS.any (fun d => strStartsWith p d) = true
       ∨ strStartsWith (realResolve (if strStartsWith p "/" then pathJoin pm.agent_root (lstripSlash p)
             else pathJoin pm.workspace p)) pm.agent_root = false) :
    ∃ msg, resolve_agent_path realResolve pm p = .error msg := by
  unfold resolve_agent_path
  by_cases hdd : strContainsSub p ".." = true
  · exact ⟨"Path traversal not allowed", by rw [if_pos hdd]⟩
  · rw [if_neg hdd]
    cases hf : SYSTEM_DIRS.find? (fun d => strStartsWith p d) with
    | some d => exact ⟨"Access to system directory " ++ d ++ " not allowed", rfl⟩
    | none =>
      have hany : SYSTEM_DIRS.any (fun d => strStartsWith p d) = false := by
        rw [List.any_eq_false]
        intro d hd
        have := List.find?_eq_none.mp hf d hd
        simpa using this
      have hrp : strStartsWith (realResolve (if strStartsWith p "/" then pathJoin pm.agent_root (lstripSlash p)
          else pathJoin pm.workspace p)) pm.agent_root = false := by
        rcases h with h | h | h
        · exact absurd h hdd
        · rw [hany] at h
          exact absurd h (by simp)
        · exact h
      exact ⟨"Path escapes agent root directory", by simp [hrp]⟩

/-- Witness for C5: scenario A — the request path
`/workspace/../../etc/passwd` contains `..` and is rejected. -/
theorem path_violation_rejected_witness :
    strContainsSub "/workspace/../../etc/passwd" ".." = true
    ∧ ∃ msg, resolve_agent_path id ⟨"/root/FileBasedAgentRuntime/agent_root"⟩
        "/workspace/../../etc/passwd" = .error msg :=
  ⟨by decide,
   path_violation_rejected id ⟨"/root/FileBasedAgentRuntime/agent_root"⟩
     "/workspace/../../etc/passwd" (Or.inl (by decide))⟩

/-! ### Command safety guard (stateful_shell.py)

The nine DANGEROUS_PATTERNS regexes use only literals, `\s` runs, `\d`
runs, word alternations and `\b` boundaries, so they are embedded in a
small regular-expression item language with existential (backtracking)
matching semantics; matching is case-insensitive, as the patterns are
compiled with re.IGNORECASE (line 45). -/

/-- Word characters for the `\b` boundary (Python re `\w`, ASCII range). -/
def isWordChar (c : Char) : Bool := c.isAlpha || c.isDigit || c = '_'

/-- Whitespace for `\s` (Python re, ASCII range). -/
def isReWs (c : Char) : Bool :=
  c = ' ' || c = '\t' || c = '\n' || c = '\r' || c = '\x0b' || c = '\x0c'

/-- Items of the pattern language: a literal, a `\s` run (`+` or `*`), a
`\d+` run, an alternation of literal words, or a `\b` boundary. -/
inductive RItem where
  | lit (l : List Char)
  | ws (atLeastOne : Bool)
  | digits
  | alt (alts : List (List Char))
  | wb

/-- Case-insensitive literal occurrence at position i. -/
def litAt (s l : List Char) (i : Nat) : Bool :=
  ((s.drop i).take l.length).map Char.toLower = l.map Char.toLower

/-- Length of the `\s` run starting at position i. -/
def wsRunLen (s : List Char) (i : Nat) : Nat := ((s.drop i).takeWhile isReWs).length

/-- Length of the digit run starting at position i. -/
def digitRunLen (s : List Char) (i : Nat) : Nat := ((s.drop i).takeWhile Char.isDigit).length

/-- Word-boundary test at position i: one side is a word character and the
other is not; out of range counts as non-word. -/
def wordBoundaryAt (s : List Char) (i : Nat) : Bool :=
  let before :=
    if i = 0 then false
    else
      match s.get? (i - 1) with
      | some c => isWordChar c
      | none => false
  let after :=
    match s.get? i with
    | some c => isWordChar c
    | none => false
  before != after

/-- Match an item sequence at position i of s, trying every admissible run
length for `\s` and `\d+` items. -/
def matchFrom (s : List Char) : List RItem → Nat → Bool
  | [], _ => true
  | .lit l :: rest, i => litAt s l i && matchFrom s rest (i + l.length)
  | .ws one :: rest, i =>
    (List.range (wsRunLen s i + 1)).any fun k =>
      decide ((if one then 1 else 0) ≤ k) && matchFrom s rest (i + k)
  | .digits :: rest, i =>
    (List.range (digitRunLen s i + 1)).any fun k =>
      decide (1 ≤ k) && matchFrom s rest (i + k)
  | .alt alts :: rest, i =>
    alts.any fun w => litAt s w i && matchFrom s rest (i + w.length)
  | .wb :: rest, i => wordBoundaryAt s i && matchFrom s rest i

/-- regex.search: the pattern matches at some position of the text. -/
def rsearch (pat : List RItem) (s : String) : Bool :=
  (List.range (s.data.length + 1)).any fun i => matchFrom s.data pat i

/-- The nine DANGEROUS_PATTERNS of StatefulShell (stateful_shell.py lines
14-24), in order: recursive root deletion, raw-disk writes, filesystem
formatting, fork bomb, sudo, su, dangerous chmod, system power control,
mass process termination. -/
def DANGEROUS_PATTERNS : List (List RItem) :=
  [ [.wb, .lit "rm".data, .ws true, .lit "-rf".data, .ws true, .lit "/".data]
  , [.wb, .lit "dd".data, .ws true, .lit "if=/dev/".data, .alt ["zero".data, "random".data]]
  , [.wb, .lit "mkfs".data, .wb]
  , [.lit ":()".data, .ws false, .lit "\x7b".data, .ws false, .lit ":|:&".data, .ws false,
     .lit "\x7d;:".data]
  , [.wb, .lit "sudo".data, .wb]
  , [.wb, .lit "su".data, .wb]
  , [.wb, .lit "chmod".data, .ws true, .lit "777".data, .ws true, .lit "/".data]
  , [.wb, .alt ["shutdown".data, "reboot".data, "halt".data, "poweroff".data], .wb]
  , [.wb, .alt ["kill".data, "killall".data], .ws true, .lit "-9".data, .ws true, .digits] ]

/-- A command text matches one of the fixed destructive patterns
(stateful_shell.py lines 110-112). -/
def dangerousMatch (command : String) : Bool :=
  DANGEROUS_PATTERNS.any fun p => rsearch p command

/-- Allow-listed safe absolute prefixes (stateful_shell.py line 125). -/
def SAFE_PREFIXES : List String := ["/usr/bin", "/usr/local/bin", "/bin", "/tmp", "/dev/null"]

/-- Python str.split() with no separator: split on whitespace runs,
dropping empty tokens. -/
def splitWsAux : List Char → List Char → List String
  | [], acc => if acc = [] then [] else [⟨acc.reverse⟩]
  | c :: cs, acc =>
    if isReWs c then
      if acc = [] then splitWsAux cs []
      else ⟨acc.reverse⟩ :: splitWsAux cs []
    else splitWsAux cs (c :: acc)

/-- Whitespace tokenization of a command line. -/
def pySplit (s : String) : List String := splitWsAux s.data []

/-- The advisory token loop of _check_command_safety (lines 114-141).
`resolveTok` models `(self.current_dir / token).resolve()`; `none` models
the exception swallowed at lines 137-139. -/
def tokenCheck (resolveTok : String → Option String) (agent_root : String) :
    List String → Bool × Option String
  | [] => (true, none)
  | t :: ts =>
    if strStartsWith t "-" then tokenCheck resolveTok agent_root ts
    else if strStartsWith t "/" && !strStartsWith t agent_root
        && !(SAFE_PREFIXES.any fun pre => strStartsWith t pre) then
      (false, some ("Path outside agent_root: " ++ t))
    else if strContainsSub t ".." then
      match resolveTok t with
      | some resolved =>
        if !strStartsWith resolved agent_root then
          (false, some ("Path traversal outside agent_root: " ++ t))
        else tokenCheck resolveTok agent_root ts
      | none => tokenCheck resolveTok agent_root ts
    else tokenCheck resolveTok agent_root ts

/-- StatefulShell._check_command_safety (lines 102-141): the dangerous
pattern scan runs first, then the advisory token check. -/
def check_command_safety (resolveTok : String → Option String) (agent_root : String)
    (command : String) : Bool × Option String :=
  if dangerousMatch command then (false, some "Dangerous command pattern detected")
  else tokenCheck resolveTok agent_root (pySplit command)

/-- Shell execution result dict: stdout, stderr, exit_code, cwd. -/
structure ShellResult where
  stdout : String
  stderr : String
  exit_code : Int
  cwd : String
deriving DecidableEq, Repr

/-- StatefulShell.execute (lines 47-98).  `shellExec` models the persistent
shell call (with its logging); it is only reached when the safety check
passes, so a blocked command is never executed. -/
def stateful_execute (shellExec : String → ShellResult)
    (resolveTok : String → Option String) (agent_root : String) (command : String) : ShellResult :=
  let sc := check_command_safety resolveTok agent_root command
  if sc.1 = false then
    { stdout := ""
      stderr := "Command blocked: " ++ (match sc.2 with | some r => r | none => "None")
      exit_code := 1
      cwd := agent_root }
  else shellExec command

/-- C6: every command matching one of the fixed destructive patterns is
blocked before any execution — the result does not depend on `shellExec`
(the shell is never called) nor on `resolveTok` (the advisory, cwd-based
token check is never reached) — and the tool returns exit code 1 with
reason "Dangerous command pattern detected". -/
theorem dangerous_command_blocked (shellExec : String → ShellResult)
    (resolveTok : String → Option String) (agent_root command : String)
    (h : dangerousMatch command = true) :
    stateful_execute shellExec resolveTok agent_root command
      = { stdout := ""
          stderr := "Command blocked: Dangerous command pattern detected"
          exit_code := 1
          cwd := agent_root } := by
  unfold stateful_execute check_command_safety
  rw [if_pos h]
  rfl

/-- Witness for C6: scenario B — `rm -rf /` matches the recursive
root-deletion pattern and is blocked with the claimed reason and exit
code, for an arbitrary concrete shell and resolver. -/
theorem dangerous_command_blocked_witness :
    dangerousMatch "rm -rf /" = true
    ∧ stateful_execute (fun _ => ⟨"ok", "", 0, "/"⟩) (fun _ => none) "/root" "rm -rf /"
      = { stdout := ""
          stderr := "Command blocked: Dangerous command pattern detected"
          exit_code := 1
          cwd := "/root" } :=
  ⟨by decide,
   dangerous_command_blocked (fun _ => ⟨"ok", "", 0, "/"⟩) (fun _ => none) "/root" "rm -rf /"
     (by decide)⟩

/-! ### PersistentShell (persistent_shell.py, PersistentShell.execute)

The live pexpect process is modelled as a script of expect outcomes.  Since
pexpect.TIMEOUT is listed among the patterns of the expect call (line 95),
a timeout is returned as the last pattern index instead of raised, which
the loop answers with `continue` (lines 138-142); `ExpectOutcome.timedOut`
models that in-list index.  pexpect.EOF is not listed and is raised, which
the loop's except branch handles. -/

/-- Interactive-command regexes (persistent_shell.py lines 26-33), whose
source text is interpolated into the cancellation message. -/
def INTERACTIVE_PATTERNS : List String :=
  ["[Pp]assword:", "\\(y/n\\)", "\\(yes/no\\)", "Press any key", "Are you sure",
   "Do you want to continue"]

/-- Outcome of one expect call of the output-reading loop. -/
inductive ExpectOutcome where
  | prompt (patIdx : Nat) (before : String)
  | interactive (patIdx : Nat) (before : String)
  | newline (before : String)
  | timedOut
  | eof

/-- Python str.strip(): drop leading and trailing whitespace. -/
def pyStrip (s : String) : String :=
  ⟨((s.data.dropWhile isReWs).reverse.dropWhile isReWs).reverse⟩

/-- Python str.split('\n'). -/
def splitNlAux : List Char → List Char → List String
  | [], acc => [⟨acc.reverse⟩]
  | x :: xs, acc =>
    if x = '\n' then ⟨acc.reverse⟩ :: splitNlAux xs []
    else splitNlAux xs (x :: acc)

/-- Split a string on newline characters, keeping empty pieces. -/
def splitNl (s : String) : List String := splitNlAux s.data []

/-- Python '\n'.join(...). -/
def joinNl : List String → String
  | [] => ""
  | [x] => x
  | x :: xs => x ++ "\n" ++ joinNl xs

/-- Loop variables of PersistentShell.execute (lines 88-89) together with
the session's prompt-pattern index. -/
structure PSLoopState where
  output_lines : List String
  echo_skipped : Bool
  prompt_idx : Nat
deriving DecidableEq, Repr

/-- State at loop entry. -/
def PSLoopState.init : PSLoopState := ⟨[], false, 0⟩

/-- Result of running the output-reading while-loop: the loop broke at a
prompt, returned a result early (interactive prompt or EOF), or is still
waiting for the process after consuming the whole script. -/
inductive PSLoopOutcome where
  | completed (st : PSLoopState)
  | returned (r : ShellResult)
  | waiting (st : PSLoopState)
deriving DecidableEq, Repr

/-- The output-reading while-loop of PersistentShell.execute (lines
91-170).  `workingDir` is self.working_dir; `cwdNow` models the
_get_current_dir() probe of the live process. -/
def psLoop (command workingDir cwdNow : String) :
    List ExpectOutcome → PSLoopState → PSLoopOutcome
  | [], st => .waiting st
  | .prompt idx before :: _, st =>
    let st' : PSLoopState := { st with prompt_idx := idx }
    if before ≠ "" then
      let lines := splitNl before
      if !st'.echo_skipped && !lines.isEmpty
          && (pyStrip (lines.headD "") == pyStrip command) then
        .completed { st' with output_lines := st'.output_lines ++ lines.tail,
                              echo_skipped := true }
      else .completed { st' with output_lines := st'.output_lines ++ lines }
    else .completed st'
  | .interactive idx _ :: _, st =>
    .returned { stdout := joinNl st.output_lines
                stderr := "Interactive command detected: " ++ INTERACTIVE_PATTERNS.getD idx ""
                  ++ ". Command cancelled."
                exit_code := 130
                cwd := cwdNow }
  | .newline before :: rest, st =>
    if before ≠ "" then
      if !st.echo_skipped && (pyStrip before == pyStrip command) then
        psLoop command workingDir cwdNow rest { st with echo_skipped := true }
      else
        psLoop command workingDir cwdNow rest
          { st with output_lines := st.output_lines ++ [before] }
    else psLoop command workingDir cwdNow rest st
  | .timedOut :: rest, st => psLoop command workingDir cwdNow rest st
  | .eof :: _, st =>
    .returned { stdout := joinNl st.output_lines
                stderr := "Shell process terminated"
                exit_code := -1
                cwd := workingDir }

/-- The expect of `EXIT_CODE:(\d+)` on the marker-exchange stream: first
position where the marker text is followed by at least one digit; the
greedy group captures the maximal digit run. -/
def parseMarkerExit : List Char → Option Nat
  | [] => none
  | c :: cs =>
    if ['E', 'X', 'I', 'T', '_', 'C', 'O', 'D', 'E', ':'].isPrefixOf (c :: cs)
        && (((c :: cs).drop 10).headD ' ').isDigit then
      some (digitsVal (((c :: cs).drop 10).takeWhile Char.isDigit) 0)
    else parseMarkerExit cs

/-- The post-completion marker phase of PersistentShell.execute (lines
172-190): read the exit code from the fresh marker exchange, pop the last
captured output line when its stripped form starts with `EXIT_CODE:`, then
join and strip the output.  `none` means the marker never arrived and the
call does not return here. -/
def psFinalize (st : PSLoopState) (markerStream : List Char) (cwdNow : String) :
    Option ShellResult :=
  match parseMarkerExit markerStream with
  | none => none
  | some code =>
    let lines :=
      match st.output_lines.getLast? with
      | some l =>
        if strStartsWith (pyStrip l) "EXIT_CODE:" then st.output_lines.dropLast
        else st.output_lines
      | none => st.output_lines
    some { stdout := pyStrip (joinNl lines)
           stderr := ""
           exit_code := Int.ofNat code
           cwd := cwdNow }

/-- PersistentShell.execute against an environment script: run the
output-reading loop, then the marker phase.  `none` means the call has not
returned (the process is still being waited on). -/
def ps_execute (command workingDir cwdNow : String) (script : List ExpectOutcome)
    (markerStream : List Char) : Option ShellResult :=
  match psLoop command workingDir cwdNow script PSLoopState.init with
  | .completed st => psFinalize st markerStream cwdNow
  | .returned r => some r
  | .waiting _ => .none

/-- A script of bare timeouts only ever reaches the `continue` branch. -/
theorem psLoop_timeouts (command workingDir cwdNow : String) (n : Nat) (st : PSLoopState) :
    psLoop command workingDir cwdNow (List.replicate n .timedOut) st = .waiting st := by
  induction n with
  | zero => rfl
  | succ n ih => simpa [List.replicate_succ, psLoop] using ih

/-- C7 is violated by the code: a command that produces no output and never
returns to the prompt makes every expect call yield the in-list
pexpect.TIMEOUT index, which the loop answers with `continue` — for every
number of timeouts the call produces no result at all.  The
`except pexpect.TIMEOUT` handler (lines 144-159), the only place that
returns `{'exit_code': -1, 'stderr': 'Command timed out'}` and tears the
session down, is unreachable because pexpect returns the listed TIMEOUT as
an index instead of raising it. -/
theorem hanging_command_never_times_out (command workingDir cwdNow : String) (n : Nat)
    (markerStream : List Char) :
    ps_execute command workingDir cwdNow (List.replicate n .timedOut) markerStream = none := by
  unfold ps_execute
  rw [psLoop_timeouts]

/-! ### Claim C8: exit-code marker extraction

The session prompt is PS1='\u@\h:\w\]\$ ' (persistent_shell.py line 50) and
the PROMPT_PATTERNS only match the prompt's tail (`$ `, `# `, `]$ `), so a
prompt match always yields the non-empty prompt prefix (e.g.
`root@host:/root`) as pexpect's `before`, which the prompt branch (lines
102-109) appends as the last entry of output_lines.  Every `\r\n`-ended
output line is consumed by the `\r\n` pattern beforehand, so the last
captured line after a terminated output is the bare prompt prefix — but
when the command's final output has no trailing newline, the output merges
with the prompt prefix into that last line. -/

/-- Environment trace of `echo -n EXIT_CODE:42` under the session prompt:
the echoed command line is matched by the `\r\n` pattern; the unterminated
output then merges with the prompt, so the tail pattern `\]\$ $` (index 4)
matches with the output text plus the prompt prefix as its `before`. -/
def c8Script : List ExpectOutcome :=
  [.newline "echo -n EXIT_CODE:42", .prompt 4 "EXIT_CODE:42root@host:/root"]

/-- Marker-exchange stream after that command: the echoed marker command
(whose `$?` is not a digit) followed by the real marker line with the real
exit status 0. -/
def c8Marker : List Char := "echo \"EXIT_CODE:$?\"\r\nEXIT_CODE:0\r\n".data

/-- A full marker line as the marker echo writes it: `EXIT_CODE:` followed
by one or more digits and nothing else. -/
def isMarkerLine (s : String) : Bool :=
  strStartsWith s "EXIT_CODE:" && !(s.data.drop 10).isEmpty
    && (s.data.drop 10).all Char.isDigit

/-- Counterexample for C8: the command `echo -n EXIT_CODE:42` really
printed the text `EXIT_CODE:42` and exited with status 0; being
unterminated, that output is captured merged with the prompt prefix as the
last output line, which is not a full marker line, yet the prefix-based
pop (persistent_shell.py lines 179-180) removes it, so the returned stdout
is empty instead of retaining the command's output — marker matching is by
startswith containment, not by the full marker-line format (the parsed
exit code 0 is the real status; the true marker line, read after the
prompt, never entered the captured output). -/
theorem marker_strip_counterexample :
    ps_execute "echo -n EXIT_CODE:42" "/root" "/root" c8Script c8Marker
      = some { stdout := "", stderr := "", exit_code := 0, cwd := "/root" }
    ∧ isMarkerLine "EXIT_CODE:42root@host:/root" = false
    ∧ strStartsWith (pyStrip "EXIT_CODE:42root@host:/root") "EXIT_CODE:" = true
    ∧ ("" : String) ≠ "EXIT_CODE:42" := by
  refine ⟨rfl, by decide, by decide, by decide⟩

/-- C8 (amended): the exit code is parsed from the fresh marker exchange
performed after the command's output was fully consumed, so it equals the
real exit status carried by that exchange even when the command's output
contains the marker text, and the true marker line never appears in the
returned stdout.  However, the final strip is prefix-based
(startswith `EXIT_CODE:`) on the last captured line, not anchored on the
full marker-line format: stdout keeps all captured output exactly when
that last line — normally the bare prompt prefix, but the command's merged
final output when it is unterminated — does not start (after stripping)
with `EXIT_CODE:`, and otherwise that genuine line is dropped. -/
theorem marker_exit_extraction (st : PSLoopState) (ms : List Char) (cwdNow : String)
    (code : Nat) (hms : parseMarkerExit ms = some code) :
    (psFinalize st ms cwdNow).map (fun r => r.exit_code) = some (Int.ofNat code)
    ∧ ((∀ l, st.output_lines.getLast? = some l →
          strStartsWith (pyStrip l) "EXIT_CODE:" = false) →
        (psFinalize st ms cwdNow).map (fun r => r.stdout)
          = some (pyStrip (joinNl st.output_lines)))
    ∧ (∀ l, st.output_lines.getLast? = some l →
        strStartsWith (pyStrip l) "EXIT_CODE:" = true →
        (psFinalize st ms cwdNow).map (fun r => r.stdout)
          = some (pyStrip (joinNl st.output_lines.dropLast))) := by
  unfold psFinalize
  rw [hms]
  refine ⟨rfl, ?_, ?_⟩
  · intro hl
    cases hg : st.output_lines.getLast? with
    | none => simp [hg]
    | some l =>
      have := hl l hg
      simp [hg, this]
  · intro l hg hpre
    simp [hg, hpre]

/-- Witness for the amended C8: a command whose terminated output is the
line `hello` (so the last captured line is the bare prompt prefix) and
whose real exit status is 7 gets exit code 7 back, with the echoed marker
command in the exchange stream not disturbing the parse, and its stdout
keeps everything captured (the output line and the prompt prefix) — no
line is popped. -/
theorem marker_exit_extraction_witness :
    parseMarkerExit "echo \"EXIT_CODE:$?\"\r\nEXIT_CODE:7\r\n".data = some 7
    ∧ (psFinalize ⟨["hello", "root@host:/root"], true, 0⟩
        "echo \"EXIT_CODE:$?\"\r\nEXIT_CODE:7\r\n".data
        "/root").map (fun r => r.exit_code) = some 7
    ∧ (psFinalize ⟨["hello", "root@host:/root"], true, 0⟩
        "echo \"EXIT_CODE:$?\"\r\nEXIT_CODE:7\r\n".data
        "/root").map (fun r => r.stdout) = some "hello\nroot@host:/root" :=
  have h := marker_exit_extraction ⟨["hello", "root@host:/root"], true, 0⟩
    "echo \"EXIT_CODE:$?\"\r\nEXIT_CODE:7\r\n".data "/root" 7 rfl
  ⟨rfl, h.1,
   have hs := h.2.1 (fun l hl => by
     have : l = "root@host:/root" := by simpa using hl.symm
     subst this
     decide)
   by simpa using hs⟩

/-! ### FileSystemAgent (file_system_agent.py) and the tool registry

The sandbox file tree is an association list from path to content;
`fsWrite` models pathlib's write_text (replace in place, or create).
Timestamps, directory creation and logging are environmental and elided;
the archive timestamp is an explicit parameter. -/

/-- File tree contents. -/
abbrev FS := List (String × String)

/-- Content of a path, if the file exists. -/
def fsRead : FS → String → Option String
  | [], _ => none
  | (q, c) :: rest, p => if q = p then some c else fsRead rest p

/-- write_text: replace the content in place, or create the file. -/
def fsWrite : FS → String → String → FS
  | [], p, c => [(p, c)]
  | (q, c0) :: rest, p, c =>
    if q = p then (p, c) :: rest else (q, c0) :: fsWrite rest p c

/-- Conversation-history entries appended by execute_tool (lines 44-90);
params and timestamps are elided, only the entry kind and tool name are
kept. -/
inductive HistEntry where
  | toolCallRec (tool : String)
  | toolResultRec (tool : String)
  | toolErrorRec (tool : String)
deriving DecidableEq, Repr

/-- Agent state: the file tree and the in-memory conversation-history
buffer. -/
structure AgentState where
  fs : FS
  conversation_history : List HistEntry
deriving DecidableEq, Repr

/-- The fixed locations used by _sync_context. -/
structure AgentPaths where
  agent_root : String
  context_file : String

/-- The working context-window file (line 97). -/
def AgentPaths.contextPath (ap : AgentPaths) : String :=
  ap.agent_root ++ "/" ++ ap.context_file

/-- The archive directory (lines 102-104). -/
def AgentPaths.historyDir (ap : AgentPaths) : String :=
  ap.agent_root ++ "/storage/history/"

/-- The timestamped archive location `storage/history/context_{ts}.md`. -/
def AgentPaths.archivePath (ap : AgentPaths) (ts : String) : String :=
  ap.historyDir ++ "context_" ++ ts ++ ".md"

/-- FileSystemAgent._sync_context (lines 93-137): archive the existing
context content to the timestamped location, overwrite the working context
with the new content, and clear the conversation history; the returned
number is the count of cleared history entries. -/
def sync_context (ap : AgentPaths) (ts newContent : String) (st : AgentState) :
    AgentState × Nat :=
  let st1 :=
    match fsRead st.fs ap.contextPath with
    | some old => { st with fs := fsWrite st.fs (ap.archivePath ts) old }
    | none => st
  let st2 := { st1 with fs := fsWrite st1.fs ap.contextPath newContent }
  let historyCount := st2.conversation_history.length
  ({ st2 with conversation_history := [] }, historyCount)

/-- Number of files under the archive directory. -/
def countHistoryFiles (ap : AgentPaths) (fs : FS) : Nat :=
  fs.countP fun kv => strStartsWith kv.1 ap.historyDir

/-- Reading back a fresh write. -/
theorem fsRead_fsWrite_same (fs : FS) (p c : String) :
    fsRead (fsWrite fs p c) p = some c := by
  induction fs with
  | nil => simp [fsWrite, fsRead]
  | cons kv rest ih =>
    by_cases h : kv.1 = p
    · simp [fsWrite, fsRead, h]
    · simp [fsWrite, fsRead, h, ih]

/-- Writes to another path do not change a read. -/
theorem fsRead_fsWrite_other (fs : FS) (p q c : String) (h : q ≠ p) :
    fsRead (fsWrite fs p c) q = fsRead fs q := by
  have hpq : ¬(p = q) := fun hh => h hh.symm
  induction fs with
  | nil =>
    simp only [fsWrite, fsRead]
    rw [if_neg hpq]
  | cons kv rest ih =>
    cases kv with
    | mk a b =>
      by_cases hk : a = p
      · subst hk
        simp only [fsWrite, fsRead, if_pos rfl]
        rw [if_neg hpq, if_neg hpq]
      · simp only [fsWrite, fsRead, if_neg hk]
        by_cases ha : a = q
        · simp [fsRead, ha]
        · simp [fsRead, ha, ih]

/-- Effect of a write on the archive-file count: replacing an existing file
leaves the count unchanged, creating a fresh one adds its key. -/
theorem countHistory_fsWrite (ap : AgentPaths) (fs : FS) (p c : String) :
    countHistoryFiles ap (fsWrite fs p c)
      = countHistoryFiles ap fs
        + (match fsRead fs p with
           | none => if strStartsWith p ap.historyDir then 1 else 0
           | some _ => 0) := by
  induction fs with
  | nil => simp [countHistoryFiles, fsWrite, fsRead, List.countP_cons]
  | cons kv rest ih =>
    cases kv with
    | mk a b =>
      by_cases hk : a = p
      · subst hk
        simp [countHistoryFiles, fsWrite, fsRead, List.countP_cons]
      · simp only [countHistoryFiles, fsWrite, fsRead, if_neg hk, List.countP_cons] at ih ⊢
        omega

/-- The archive location lies inside the archive directory. -/
theorem archivePath_in_historyDir (ap : AgentPaths) (ts : String) :
    strStartsWith (ap.archivePath ts) ap.historyDir = true := by
  have : (ap.archivePath ts).data = ap.historyDir.data
      ++ ("context_" ++ ts ++ ".md").data := by
    simp [AgentPaths.archivePath, String.data_append, List.append_assoc]
  rw [strStartsWith, this]
  exact List.isPrefixOf_iff_prefix.mpr (List.prefix_append _ _)

/-- C9: each call to sync_context (with a fresh timestamp, on a state where
the working context file exists) archives exactly one additional
timestamped snapshot holding the prior context, fully replaces the working
context file so that its content equals the argument, and clears the
in-memory conversation history; the returned count is the number of
cleared entries. -/
theorem sync_context_replaces_and_archives (ap : AgentPaths) (ts newContent : String)
    (st : AgentState) (old : String)
    (hex : fsRead st.fs ap.contextPath = some old)
    (hfresh : fsRead st.fs (ap.archivePath ts) = none)
    (hdiff : ap.contextPath ≠ ap.archivePath ts) :
    fsRead (sync_context ap ts newContent st).1.fs ap.contextPath = some newContent
    ∧ fsRead (sync_context ap ts newContent st).1.fs (ap.archivePath ts) = some old
    ∧ countHistoryFiles ap (sync_context ap ts newContent st).1.fs
        = countHistoryFiles ap st.fs + 1
    ∧ (sync_context ap ts newContent st).1.conversation_history = []
    ∧ (sync_context ap ts newContent st).2 = st.conversation_history.length := by
  unfold sync_context
  rw [hex]
  dsimp only
  refine ⟨fsRead_fsWrite_same _ _ _, ?_, ?_, rfl, rfl⟩
  · rw [fsRead_fsWrite_other _ _ _ _ (fun hh => hdiff hh.symm)]
    exact fsRead_fsWrite_same _ _ _
  · rw [countHistory_fsWrite, countHistory_fsWrite]
    rw [fsRead_fsWrite_other _ _ _ _ hdiff, hex, hfresh]
    rw [archivePath_in_historyDir]
    simp

/-- Concrete paths for the C9 witness. -/
def c9Paths : AgentPaths := ⟨"/root/agent_root", "context_window_main.md"⟩

/-- Concrete pre-state for the C9 witness. -/
def c9State : AgentState :=
  ⟨[(c9Paths.contextPath, "# Current Task\nold task")], [.toolCallRec "shell"]⟩

/-- Witness for C9 at a concrete state, fresh timestamp and new content. -/
theorem sync_context_replaces_and_archives_witness :
    fsRead c9State.fs c9Paths.contextPath = some "# Current Task\nold task"
    ∧ fsRead c9State.fs (c9Paths.archivePath "20250101_120000") = none
    ∧ fsRead (sync_context c9Paths "20250101_120000" "# Current Task\nnew task" c9State).1.fs
        c9Paths.contextPath = some "# Current Task\nnew task"
    ∧ fsRead (sync_context c9Paths "20250101_120000" "# Current Task\nnew task" c9State).1.fs
        (c9Paths.archivePath "20250101_120000") = some "# Current Task\nold task"
    ∧ countHistoryFiles c9Paths
        (sync_context c9Paths "20250101_120000" "# Current Task\nnew task" c9State).1.fs
      = countHistoryFiles c9Paths c9State.fs + 1
    ∧ (sync_context c9Paths "20250101_120000" "# Current Task\nnew task" c9State).1.conversation_history
      = [] :=
  have h := sync_context_replaces_and_archives c9Paths "20250101_120000"
    "# Current Task\nnew task" c9State "# Current Task\nold task"
    (by decide) (by decide) (by decide)
  ⟨by decide, by decide, h.1, h.2.1, h.2.2.1, h.2.2.2.1⟩

/-! ### Claim C10: tool dispatch versus the advertised manifest -/

/-- Keys of the tool_mapping dispatched by FileSystemAgent.execute_tool
(file_system_agent.py lines 54-60). -/
def KNOWN_TOOLS : List String :=
  ["read_file", "write_file", "list_directory", "execute_command", "sync_context"]

/-- Tool names advertised to the model by ToolsRegistry.get_all_tools
(tools_registry.py lines 10-102), in order. -/
def REGISTRY_TOOL_NAMES : List String :=
  ["shell", "edit_file", "create_file", "sync_context"]

/-- FileSystemAgent.execute_tool (lines 41-91).  `impls` models the five
bound tool methods.  A tool_call record is appended to the history first;
an unknown name then raises ValueError before any tool function runs; a
known tool's success appends a tool_result record and its exception a
tool_error record, the exception propagating. -/
def execute_tool
    (impls : String → JsonValue → AgentState → Except String (AgentState × String))
    (name : String) (params : JsonValue) (st : AgentState) :
    AgentState × Except String String :=
  let st0 : AgentState :=
    { st with conversation_history := st.conversation_history ++ [.toolCallRec name] }
  if name ∈ KNOWN_TOOLS then
    match impls name params st0 with
    | .ok (st1, r) =>
      ({ st1 with conversation_history := st1.conversation_history ++ [.toolResultRec name] },
       .ok r)
    | .error e =>
      ({ st0 with conversation_history := st0.conversation_history ++ [.toolErrorRec name] },
       .error e)
  else (st0, .error ("Unknown tool: " ++ name))

/-- C10: execute_tool dispatches only read_file, write_file,
list_directory, execute_command and sync_context; every other name —
including shell, edit_file and create_file, the very names advertised in
the manifest sent to the model — raises ValueError("Unknown tool: <name>")
before performing any tool side effect: the result does not depend on
`impls` (no tool function runs) and the file tree is untouched; only the
tool_call history record has been appended. -/
theorem unknown_tool_rejected
    (impls : String → JsonValue → AgentState → Except String (AgentState × String))
    (name : String) (params : JsonValue) (st : AgentState)
    (h : name ∉ KNOWN_TOOLS) :
    execute_tool impls name params st
      = ({ st with conversation_history := st.conversation_history ++ [.toolCallRec name] },
         .error ("Unknown tool: " ++ name))
    ∧ (execute_tool impls name params st).1.fs = st.fs
    ∧ ("shell" ∉ KNOWN_TOOLS ∧ "edit_file" ∉ KNOWN_TOOLS ∧ "create_file" ∉ KNOWN_TOOLS)
    ∧ ("shell" ∈ REGISTRY_TOOL_NAMES ∧ "edit_file" ∈ REGISTRY_TOOL_NAMES
        ∧ "create_file" ∈ REGISTRY_TOOL_NAMES) := by
  have hmain : execute_tool impls name params st
      = ({ st with conversation_history := st.conversation_history ++ [.toolCallRec name] },
         .error ("Unknown tool: " ++ name)) := by
    unfold execute_tool
    rw [if_neg h]
  refine ⟨hmain, by rw [hmain], by decide, by decide⟩

/-- Witness for C10: the advertised tool name `shell` is rejected with
`Unknown tool: shell`, leaving only the tool_call record behind. -/
theorem unknown_tool_rejected_witness :
    "shell" ∉ KNOWN_TOOLS
    ∧ execute_tool (fun _ _ s => .ok (s, "ok")) "shell" (.jobj []) ⟨[], []⟩
      = (⟨[], [.toolCallRec "shell"]⟩, .error "Unknown tool: shell") :=
  ⟨by decide,
   (unknown_tool_rejected (fun _ _ s => .ok (s, "ok")) "shell" (.jobj []) ⟨[], []⟩
      (by decide)).1⟩

end AgentRuntime
